import Mathlib

/-!
Shallow embedding of the trend-spotting dashboard (src/App.tsx and src/types.ts)
and proofs about its fetch-fallback, load and sort logic.

Modelling conventions:
* JavaScript promises that either resolve with text or reject are embedded as
  `Except String String`.
* The network is a pure oracle `net : String → FetchResult` mapping each proxy
  URL to the outcome of the single request the code issues for it.
* `parseTrendsXML` (src/utils/xmlParser.ts, not part of the analysed sources)
  is an opaque parameter `parse : String → List TrendItem`; the bundled sample
  documents (src/data/sampleFeeds.ts) are opaque string parameters.
* JavaScript date parsing, `new Date(s).getTime()`, is an opaque parameter
  `pd : String → Option Int`: `none` models `NaN` (an unparseable date) and
  `some t` the millisecond timestamp, which JavaScript allows to be negative
  for dates before the epoch.  The code's `|| 0` coercion is `Option.getD 0`.
* React state cells are gathered into one `AppState` record; a `loadData`
  invocation is a pure state transformer on it.
* `Array.prototype.sort` with a consistent comparator is stable in JavaScript;
  it is modelled by the stable `List.insertionSort`, keyed exactly as the
  comparator in the code.
-/

namespace TrendSpotting

/-- News article record, from src/types.ts. -/
structure NewsItem where
  title : String
  url : String
  source : String
  imageUrl : Option String
  deriving DecidableEq

/-- Trend record, from src/types.ts. -/
structure TrendItem where
  id : String
  title : String
  traffic : String
  pubDate : String
  mainPicture : Option String
  pictureSource : Option String
  newsItems : List NewsItem
  deriving DecidableEq

/-- Outcome of the single request issued for one proxy URL: the promise either
rejected (`thrown`, carrying the error) or produced a response with an `ok`
flag and a body text. -/
inductive FetchResult where
  | thrown (err : String)
  | response (ok : Bool) (text : String)
  deriving DecidableEq

/-- Substring test on character lists, modelling JavaScript
`String.prototype.includes`. -/
def listContains (pat : List Char) : List Char → Bool
  | [] => pat.isEmpty
  | c :: t => pat.isPrefixOf (c :: t) || listContains pat t

/-- JavaScript `s.includes(pat)` for the strings of this embedding. -/
def strContains (s pat : String) : Bool :=
  listContains pat.toList s.toList

/-- Target URL construction from src/App.tsx line 19. -/
def RSS_URL (geo : String) : String :=
  "https://trends.google.com/trending/rss?geo=" ++ geo

/-- Ordered list of proxy URL generators from src/App.tsx lines 23-30.
`enc` is the JavaScript builtin `encodeURIComponent`, kept opaque. -/
def proxyGenerators (enc : String → String) : List (String → String) :=
  [fun url => "https://api.allorigins.win/raw?url=" ++ enc url,
   fun url => "https://corsproxy.io/?" ++ enc url,
   fun url => "https://api.codetabs.com/v1/proxy?quest=" ++ enc url]

/-- Loop body of `fetchFeed` (src/App.tsx lines 32-50): try each generator in
order with one request each; accept an `ok` response whose body contains an
RSS root tag opener or an XML declaration opener; otherwise move on.  When the
generator list is exhausted, reject with the error naming the geography. -/
def fetchAttempts (geo : String) (net : String → FetchResult) :
    List (String → String) → Except String String
  | [] => Except.error ("Unable to reach Google Trends for " ++ geo ++ " via any available proxy.")
  | g :: rest =>
    match net (g (RSS_URL geo)) with
    | FetchResult.response ok text =>
      if ok && (strContains text "<rss" || strContains text "<?xml") then
        Except.ok text
      else
        fetchAttempts geo net rest
    | FetchResult.thrown _ => fetchAttempts geo net rest

/-- `fetchFeed` from src/App.tsx lines 18-51. -/
def fetchFeed (enc : String → String) (net : String → FetchResult) (geo : String) :
    Except String String :=
  fetchAttempts geo net (proxyGenerators enc)

/-- Acceptance test applied to one relay outcome: the response must carry an
`ok` status and its body must contain an XML marker (src/App.tsx lines 37-42). -/
def accepts (r : FetchResult) : Bool :=
  match r with
  | FetchResult.response ok text => ok && (strContains text "<rss" || strContains text "<?xml")
  | FetchResult.thrown _ => false

/-- Body text carried by a response outcome, `none` for a thrown one. -/
def bodyText (r : FetchResult) : Option String :=
  match r with
  | FetchResult.response _ text => some text
  | FetchResult.thrown _ => none

/-- Sort direction state, the `'asc' | 'desc'` union of src/App.tsx line 15. -/
inductive SortOrder where
  | asc
  | desc
  deriving DecidableEq

/-- React state cells of the App component (src/App.tsx lines 9-15). -/
structure AppState where
  bdTrends : List TrendItem
  ukTrends : List TrendItem
  lastUpdated : String
  loading : Bool
  isLive : Bool
  errorMessage : Option String
  sortOrder : SortOrder
  deriving DecidableEq

/-- Fixed user-facing notice set on the fallback path (src/App.tsx line 85). -/
def fallbackMessage : String :=
  "Live connection failed. Displaying cached data. Please try again later."

/-- `loadData` from src/App.tsx lines 54-90 as a state transformer.
`fetchBd` and `fetchGb` are the settled outcomes of the two `fetchFeed`
promises joined by `Promise.all`; `now` is `new Date().toLocaleTimeString()`.
A rejection of either promise, or a throw of `Error("Parsed data was empty")`
when either parse is empty, lands in the catch block; `finally` clears
`loading` on every path. -/
def loadData (parse : String → List TrendItem) (bdSample ukSample : String)
    (fetchBd fetchGb : Except String String) (now : String) (s : AppState) : AppState :=
  let s₀ := { s with loading := true, errorMessage := none }
  let fallback : AppState → AppState := fun st =>
    { st with bdTrends := parse bdSample, ukTrends := parse ukSample,
              isLive := false, lastUpdated := now,
              errorMessage := some fallbackMessage }
  let s₁ :=
    match fetchBd, fetchGb with
    | Except.ok bdXml, Except.ok ukXml =>
      let parsedBd := parse bdXml
      let parsedUk := parse ukXml
      if parsedBd.length > 0 ∧ parsedUk.length > 0 then
        { s₀ with bdTrends := parsedBd, ukTrends := parsedUk,
                  isLive := true, lastUpdated := now }
      else
        fallback s₀
    | _, _ => fallback s₀
  { s₁ with loading := false }

/-- Comparator key of `sortTrends` (src/App.tsx lines 108-109):
`new Date(x.pubDate).getTime() || 0`. -/
def dateKey (pd : String → Option Int) (it : TrendItem) : Int :=
  (pd it.pubDate).getD 0

/-- `sortTrends` from src/App.tsx lines 106-112: a stable sort of a copy of
the items, descending by date key under `desc` and ascending under `asc`. -/
def sortTrends (pd : String → Option Int) (order : SortOrder)
    (items : List TrendItem) : List TrendItem :=
  match order with
  | SortOrder.desc => List.insertionSort (fun a b => dateKey pd b ≤ dateKey pd a) items
  | SortOrder.asc => List.insertionSort (fun a b => dateKey pd a ≤ dateKey pd b) items

/-- `toggleSort` from src/App.tsx lines 117-119. -/
def toggleSort (o : SortOrder) : SortOrder :=
  match o with
  | SortOrder.desc => SortOrder.asc
  | SortOrder.asc => SortOrder.desc

/-- Concrete trend item used in witness instantiations. -/
def wItem (s : String) : TrendItem :=
  { id := s, title := s, traffic := "", pubDate := s,
    mainPicture := none, pictureSource := none, newsItems := [] }

/-- Concrete parse function for witnesses: the document "E" parses empty,
every other document to one item. -/
def parseW : String → List TrendItem :=
  fun s => if s = "E" then [] else [wItem s]

/-- Concrete initial state for witnesses. -/
def stateW : AppState :=
  { bdTrends := [], ukTrends := [], lastUpdated := "", loading := false,
    isLive := false, errorMessage := none, sortOrder := SortOrder.desc }

/-- Concrete date parser for witnesses: two parseable positive dates, the rest
unparseable. -/
def pdW : String → Option Int :=
  fun s => if s = "p1" then some 1 else if s = "p2" then some 2 else none

/-- Witness item dated at timestamp 1. -/
def wOne : TrendItem := wItem "p1"

/-- Witness item dated at timestamp 2. -/
def wTwo : TrendItem := wItem "p2"

/-- Witness item with an unparseable date. -/
def wBad : TrendItem := wItem "bad"

/-- Date parser exhibiting a pre-epoch date: JavaScript `getTime()` yields a
negative millisecond count for dates before 1970. -/
def pdCex : String → Option Int :=
  fun s => if s = "old" then some (-100) else none

/-- Item dated before the epoch under `pdCex`. -/
def trendOld : TrendItem := wItem "old"

/-- C1: when either geography fetch rejects, or either parsed sequence is
empty, `loadData` replaces both item sequences with the parses of the two
bundled sample documents, sets `isLive := false`, `lastUpdated := now`,
`errorMessage` to the fixed notice, and `loading := false`; any partial
success is discarded. -/
theorem loadData_fallback_state (parse : String → List TrendItem)
    (bdSample ukSample : String) (fetchBd fetchGb : Except String String)
    (now : String) (s : AppState)
    (h : ∀ b u, fetchBd = Except.ok b → fetchGb = Except.ok u →
      parse b = [] ∨ parse u = []) :
    loadData parse bdSample ukSample fetchBd fetchGb now s =
      { s with bdTrends := parse bdSample, ukTrends := parse ukSample,
               isLive := false, lastUpdated := now,
               errorMessage := some fallbackMessage, loading := false } := by
  cases fetchBd with
  | error e => rfl
  | ok b =>
    cases fetchGb with
    | error e => rfl
    | ok u =>
      have hc : ¬((parse b).length > 0 ∧ (parse u).length > 0) := by
        rcases h b u rfl rfl with hb | hu
        · intro hcon
          rw [hb] at hcon
          exact absurd hcon.1 (by simp)
        · intro hcon
          rw [hu] at hcon
          exact absurd hcon.2 (by simp)
      simp [loadData, hc]

/-- Witness for `loadData_fallback_state`: both fetches resolve but the BD
document parses empty, so the fallback state is committed. -/
theorem loadData_fallback_state_witness :
    loadData parseW "bdS" "ukS" (Except.ok "E") (Except.ok "U") "now" stateW =
      { stateW with bdTrends := parseW "bdS", ukTrends := parseW "ukS",
                    isLive := false, lastUpdated := "now",
                    errorMessage := some fallbackMessage, loading := false } :=
  loadData_fallback_state parseW "bdS" "ukS" (Except.ok "E") (Except.ok "U") "now" stateW
    (by
      intro b u h1 h2
      injection h1 with h1
      subst h1
      left
      decide)

/-- C2: when both geography fetches resolve and both parsed sequences are
non-empty, `loadData` commits the parsed results, sets `isLive := true`,
`lastUpdated := now`, leaves `errorMessage` null and clears `loading`. -/
theorem loadData_live_state (parse : String → List TrendItem)
    (bdSample ukSample bdXml ukXml now : String) (s : AppState)
    (hb : parse bdXml ≠ []) (hu : parse ukXml ≠ []) :
    loadData parse bdSample ukSample (Except.ok bdXml) (Except.ok ukXml) now s =
      { s with bdTrends := parse bdXml, ukTrends := parse ukXml,
               isLive := true, lastUpdated := now,
               errorMessage := none, loading := false } := by
  have hc : (parse bdXml).length > 0 ∧ (parse ukXml).length > 0 :=
    ⟨List.length_pos.mpr hb, List.length_pos.mpr hu⟩
  simp [loadData, hc]

/-- Witness for `loadData_live_state`: both fetches resolve with non-empty
parses and the live state is committed. -/
theorem loadData_live_state_witness :
    parseW "B" ≠ [] ∧ parseW "U" ≠ [] ∧
    loadData parseW "bdS" "ukS" (Except.ok "B") (Except.ok "U") "now" stateW =
      { stateW with bdTrends := parseW "B", ukTrends := parseW "U",
                    isLive := true, lastUpdated := "now",
                    errorMessage := none, loading := false } :=
  ⟨by decide, by decide,
    loadData_live_state parseW "bdS" "ukS" "B" "U" "now" stateW (by decide) (by decide)⟩

/-- C8: every invocation of `loadData` ends with `loading = false`, and the
final state is always renderable: it is exactly the live-commit state for
some pair of fetched documents, or exactly the fallback state built from the
bundled samples. -/
theorem loadData_always_renderable (parse : String → List TrendItem)
    (bdSample ukSample : String) (fetchBd fetchGb : Except String String)
    (now : String) (s : AppState) :
    (loadData parse bdSample ukSample fetchBd fetchGb now s).loading = false ∧
    ((∃ b u, fetchBd = Except.ok b ∧ fetchGb = Except.ok u ∧
        loadData parse bdSample ukSample fetchBd fetchGb now s =
          { s with bdTrends := parse b, ukTrends := parse u, isLive := true,
                   lastUpdated := now, errorMessage := none, loading := false }) ∨
      loadData parse bdSample ukSample fetchBd fetchGb now s =
        { s with bdTrends := parse bdSample, ukTrends := parse ukSample,
                 isLive := false, lastUpdated := now,
                 errorMessage := some fallbackMessage, loading := false }) := by
  cases fetchBd with
  | error e => exact ⟨rfl, Or.inr rfl⟩
  | ok b =>
    cases fetchGb with
    | error e => exact ⟨rfl, Or.inr rfl⟩
    | ok u =>
      by_cases hc : (parse b).length > 0 ∧ (parse u).length > 0
      · exact ⟨rfl, Or.inl ⟨b, u, rfl, rfl, by simp [loadData, hc]⟩⟩
      · exact ⟨rfl, Or.inr (by simp [loadData, hc])⟩

/-- C10: after every completed invocation of `loadData`, `errorMessage` is
null exactly when `isLive` is true. -/
theorem loadData_error_iff_offline (parse : String → List TrendItem)
    (bdSample ukSample : String) (fetchBd fetchGb : Except String String)
    (now : String) (s : AppState) :
    ((loadData parse bdSample ukSample fetchBd fetchGb now s).errorMessage = none ↔
      (loadData parse bdSample ukSample fetchBd fetchGb now s).isLive = true) := by
  cases fetchBd with
  | error e => simp [loadData]
  | ok b =>
    cases fetchGb with
    | error e => simp [loadData]
    | ok u =>
      by_cases hc : (parse b).length > 0 ∧ (parse u).length > 0
      · simp [loadData, hc]
      · simp [loadData, hc]

/-- Unfolding lemma for the relay loop: over any generator list, the loop
returns the body of the first outcome passing the acceptance test, and the
geography-naming error once the list is exhausted. -/
theorem fetchAttempts_eq_find (geo : String) (net : String → FetchResult)
    (gs : List (String → String)) :
    fetchAttempts geo net gs =
      match (gs.map (fun g => net (g (RSS_URL geo)))).find? accepts with
      | some (FetchResult.response _ text) => Except.ok text
      | _ =>
        Except.error ("Unable to reach Google Trends for " ++ geo ++ " via any available proxy.") := by
  induction gs with
  | nil => rfl
  | cons g rest ih =>
    rw [List.map_cons]
    cases hr : net (g (RSS_URL geo)) with
    | thrown e =>
      rw [List.find?_cons_of_neg _ (by simp [accepts])]
      simpa [fetchAttempts, hr] using ih
    | response ok text =>
      by_cases hc : (ok && (strContains text "<rss" || strContains text "<?xml")) = true
      · rw [List.find?_cons_of_pos _ (by simpa [accepts] using hc)]
        simp [fetchAttempts, hr, hc]
      · rw [List.find?_cons_of_neg _ (by simpa [accepts] using hc)]
        simp only [fetchAttempts, hr, hc]
        simpa [fetchAttempts, hr, hc] using ih

/-- C3: for every geography and network behaviour, `fetchFeed` scans the
fixed generator list in order with one request each, resolves with the body
text of the first accepted response, and when no generator yields an accepted
response it rejects with the descriptive error naming the geography. -/
theorem fetchFeed_first_accepted (enc : String → String) (net : String → FetchResult)
    (geo : String) :
    fetchFeed enc net geo =
      match ((proxyGenerators enc).map (fun g => net (g (RSS_URL geo)))).find? accepts with
      | some (FetchResult.response _ text) => Except.ok text
      | _ =>
        Except.error ("Unable to reach Google Trends for " ++ geo ++ " via any available proxy.") :=
  fetchAttempts_eq_find geo net (proxyGenerators enc)

/-- C4: a relay outcome is accepted exactly when it is a response with `ok`
status whose body contains an RSS root tag opener or an XML declaration
opener; an accepted response resolves the loop with its body, and a rejected
outcome is skipped in favour of the remaining generators. -/
theorem fetchFeed_accepts_iff :
    (∀ r, accepts r = true ↔
        ∃ text, r = FetchResult.response true text ∧
          (strContains text "<rss" = true ∨ strContains text "<?xml" = true)) ∧
    ∀ (geo : String) (net : String → FetchResult) (g : String → String)
      (rest : List (String → String)),
      fetchAttempts geo net (g :: rest) =
        match net (g (RSS_URL geo)), accepts (net (g (RSS_URL geo))) with
        | FetchResult.response _ text, true => Except.ok text
        | _, _ => fetchAttempts geo net rest := by
  constructor
  · intro r
    cases r with
    | thrown e => simp [accepts]
    | response ok text =>
      cases ok <;> simp [accepts]
  · intro geo net g rest
    cases hr : net (g (RSS_URL geo)) with
    | thrown e => simp [fetchAttempts, hr, accepts]
    | response ok text =>
      by_cases hc : (ok && (strContains text "<rss" || strContains text "<?xml")) = true
      · simp [fetchAttempts, hr, accepts, hc]
      · simp [fetchAttempts, hr, accepts, hc]

/-- Both directions of `sortTrends` permute their input. -/
theorem sortTrends_perm_aux (pd : String → Option Int) (o : SortOrder)
    (items : List TrendItem) : (sortTrends pd o items).Perm items := by
  cases o <;> exact List.perm_insertionSort _ items

/-- The descending result is pairwise ordered by non-increasing date key. -/
theorem sortTrends_desc_sorted (pd : String → Option Int) (items : List TrendItem) :
    (sortTrends pd SortOrder.desc items).Pairwise
      (fun a b => dateKey pd b ≤ dateKey pd a) := by
  haveI : IsTotal TrendItem (fun a b => dateKey pd b ≤ dateKey pd a) :=
    ⟨fun a b => le_total (dateKey pd b) (dateKey pd a)⟩
  haveI : IsTrans TrendItem (fun a b => dateKey pd b ≤ dateKey pd a) :=
    ⟨fun _ _ _ h₁ h₂ => le_trans h₂ h₁⟩
  exact List.sorted_insertionSort _ items

/-- The ascending result is pairwise ordered by non-decreasing date key. -/
theorem sortTrends_asc_sorted (pd : String → Option Int) (items : List TrendItem) :
    (sortTrends pd SortOrder.asc items).Pairwise
      (fun a b => dateKey pd a ≤ dateKey pd b) := by
  haveI : IsTotal TrendItem (fun a b => dateKey pd a ≤ dateKey pd b) :=
    ⟨fun a b => le_total (dateKey pd a) (dateKey pd b)⟩
  haveI : IsTrans TrendItem (fun a b => dateKey pd a ≤ dateKey pd b) :=
    ⟨fun _ _ _ h₁ h₂ => le_trans h₁ h₂⟩
  exact List.sorted_insertionSort _ items

/-- Two permuted lists that are both strictly decreasing on the same integer
key are equal. -/
theorem eq_of_perm_of_strictSorted {α : Type} (f : α → Int) (l₁ : List α) :
    ∀ l₂ : List α, l₁.Perm l₂ → l₁.Pairwise (fun a b => f b < f a) →
      l₂.Pairwise (fun a b => f b < f a) → l₁ = l₂ := by
  induction l₁ with
  | nil =>
    intro l₂ hp _ _
    exact (hp.symm.eq_nil).symm
  | cons a t ih =>
    intro l₂ hp h₁ h₂
    cases l₂ with
    | nil => exact absurd hp.eq_nil (List.cons_ne_nil a t)
    | cons b t₂ =>
      have hab : a = b := by
        by_contra hne
        have hbmem : b ∈ a :: t := hp.symm.mem_iff.mp (List.mem_cons_self b t₂)
        have hamem : a ∈ b :: t₂ := hp.mem_iff.mp (List.mem_cons_self a t)
        have hb : b ∈ t := by
          rcases List.mem_cons.mp hbmem with h | h
          · exact absurd h.symm hne
          · exact h
        have ha : a ∈ t₂ := by
          rcases List.mem_cons.mp hamem with h | h
          · exact absurd h hne
          · exact h
        have hlt₁ : f b < f a := (List.pairwise_cons.mp h₁).1 b hb
        have hlt₂ : f a < f b := (List.pairwise_cons.mp h₂).1 a ha
        omega
      subst hab
      rw [ih t₂ hp.cons_inv (List.pairwise_cons.mp h₁).2 (List.pairwise_cons.mp h₂).2]

/-- A list sorted by non-increasing key with pairwise distinct keys is
strictly decreasing on the key. -/
theorem strict_of_sorted_distinct {α : Type} (f : α → Int) (l : List α)
    (hs : l.Pairwise (fun a b => f b ≤ f a))
    (hd : l.Pairwise (fun a b => f a ≠ f b)) :
    l.Pairwise (fun a b => f b < f a) :=
  (hs.and hd).imp (fun h => lt_of_le_of_ne h.1 (Ne.symm h.2))

/-- In a list sorted by non-decreasing key, an element strictly below every
other element's key is the head. -/
theorem head_eq_of_min {α : Type} (f : α → Int) (l : List α) (b : α) (hb : b ∈ l)
    (hs : l.Pairwise (fun x y => f x ≤ f y))
    (hmin : ∀ a ∈ l, a ≠ b → f b < f a) : l.head? = some b := by
  cases l with
  | nil => cases hb
  | cons x xs =>
    by_cases hxb : x = b
    · simp [hxb]
    · have hfb : f b < f x := hmin x (List.mem_cons_self x xs) hxb
      have hbxs : b ∈ xs := by
        rcases List.mem_cons.mp hb with h | h
        · exact absurd h.symm hxb
        · exact h
      have hle : f x ≤ f b := (List.pairwise_cons.mp hs).1 b hbxs
      omega

/-- In a list sorted by non-increasing key, an element strictly below every
other element's key is the last element. -/
theorem getLast_eq_of_min {α : Type} (f : α → Int) (l : List α) (b : α) (hb : b ∈ l)
    (hs : l.Pairwise (fun x y => f y ≤ f x))
    (hmin : ∀ a ∈ l, a ≠ b → f b < f a) : l.getLast? = some b := by
  have hrev : l.reverse.head? = some b :=
    head_eq_of_min f l.reverse b (List.mem_reverse.mpr hb)
      (List.pairwise_reverse.mpr hs)
      (fun a ha hne => hmin a (List.mem_reverse.mp ha) hne)
  rw [← List.head?_reverse]
  exact hrev

/-- C7: `sortTrends` is pure: its result is a permutation of the input with
the same length, and the input list itself is untouched (the embedding is
functional, mirroring the copy `[...items]` made by the code). -/
theorem sortTrends_pure_perm (pd : String → Option Int) (o : SortOrder)
    (items : List TrendItem) :
    (sortTrends pd o items).Perm items ∧
    (sortTrends pd o items).length = items.length :=
  ⟨sortTrends_perm_aux pd o items, (sortTrends_perm_aux pd o items).length_eq⟩

/-- C6: on a list whose date keys are pairwise distinct, the descending sort
is the reverse of the ascending sort. -/
theorem sortTrends_desc_eq_reverse_asc (pd : String → Option Int)
    (items : List TrendItem)
    (hd : items.Pairwise (fun a b => dateKey pd a ≠ dateKey pd b)) :
    sortTrends pd SortOrder.desc items = (sortTrends pd SortOrder.asc items).reverse := by
  have hpermD : (sortTrends pd SortOrder.desc items).Perm items :=
    sortTrends_perm_aux pd SortOrder.desc items
  have hpermA : (sortTrends pd SortOrder.asc items).Perm items :=
    sortTrends_perm_aux pd SortOrder.asc items
  have hpermAR : ((sortTrends pd SortOrder.asc items).reverse).Perm items :=
    (List.reverse_perm _).trans hpermA
  have hperm : (sortTrends pd SortOrder.desc items).Perm
      ((sortTrends pd SortOrder.asc items).reverse) :=
    hpermD.trans hpermAR.symm
  have hdD : (sortTrends pd SortOrder.desc items).Pairwise
      (fun a b => dateKey pd a ≠ dateKey pd b) :=
    (hpermD.pairwise_iff (fun hab => Ne.symm hab)).mpr hd
  have hdAR : ((sortTrends pd SortOrder.asc items).reverse).Pairwise
      (fun a b => dateKey pd a ≠ dateKey pd b) :=
    (hpermAR.pairwise_iff (fun hab => Ne.symm hab)).mpr hd
  have hsD : (sortTrends pd SortOrder.desc items).Pairwise
      (fun a b => dateKey pd b < dateKey pd a) :=
    strict_of_sorted_distinct (dateKey pd) _ (sortTrends_desc_sorted pd items) hdD
  have hsAR : ((sortTrends pd SortOrder.asc items).reverse).Pairwise
      (fun a b => dateKey pd b < dateKey pd a) :=
    strict_of_sorted_distinct (dateKey pd) _
      (List.pairwise_reverse.mpr (sortTrends_asc_sorted pd items)) hdAR
  exact eq_of_perm_of_strictSorted (dateKey pd) _ _ hperm hsD hsAR

/-- Witness for `sortTrends_desc_eq_reverse_asc` on a two-item list with
distinct keys. -/
theorem sortTrends_desc_eq_reverse_asc_witness :
    ([wOne, wTwo] : List TrendItem).Pairwise
      (fun a b => dateKey pdW a ≠ dateKey pdW b) ∧
    sortTrends pdW SortOrder.desc [wOne, wTwo] =
      (sortTrends pdW SortOrder.asc [wOne, wTwo]).reverse :=
  ⟨by decide, sortTrends_desc_eq_reverse_asc pdW [wOne, wTwo] (by decide)⟩

/-- C5 counterexample: with an item dated before the epoch (negative
JavaScript timestamp), the unparseable item is keyed 0 and therefore does not
sort to the oldest position: descending it comes first, not last, and
ascending it comes last, not first. -/
theorem sortTrends_unparseable_cex :
    pdCex wBad.pubDate = none ∧ wBad ≠ trendOld ∧
    (sortTrends pdCex SortOrder.desc [wBad, trendOld]).getLast? ≠ some wBad ∧
    (sortTrends pdCex SortOrder.asc [wBad, trendOld]).head? ≠ some wBad := by
  decide

/-- C5 amended: an item whose `pubDate` does not parse is keyed as timestamp
0, and in any list where every other item's date parses to a positive
(post-epoch) timestamp it sorts last under `desc` and first under `asc`. -/
theorem sortTrends_unparseable_epoch (pd : String → Option Int)
    (items : List TrendItem) (b : TrendItem) (hb : b ∈ items)
    (hun : pd b.pubDate = none)
    (hpos : ∀ a ∈ items, a ≠ b → ∃ t, pd a.pubDate = some t ∧ 0 < t) :
    dateKey pd b = 0 ∧
    (sortTrends pd SortOrder.desc items).getLast? = some b ∧
    (sortTrends pd SortOrder.asc items).head? = some b := by
  have hkey : dateKey pd b = 0 := by simp [dateKey, hun]
  have hmin : ∀ a ∈ items, a ≠ b → dateKey pd b < dateKey pd a := by
    intro a ha hne
    rcases hpos a ha hne with ⟨t, hat, htpos⟩
    rw [hkey]
    simp [dateKey, hat]
    exact htpos
  refine ⟨hkey, ?_, ?_⟩
  · exact getLast_eq_of_min (dateKey pd) _ b
      ((sortTrends_perm_aux pd SortOrder.desc items).mem_iff.mpr hb)
      (sortTrends_desc_sorted pd items)
      (fun a ha hne =>
        hmin a ((sortTrends_perm_aux pd SortOrder.desc items).mem_iff.mp ha) hne)
  · exact head_eq_of_min (dateKey pd) _ b
      ((sortTrends_perm_aux pd SortOrder.asc items).mem_iff.mpr hb)
      (sortTrends_asc_sorted pd items)
      (fun a ha hne =>
        hmin a ((sortTrends_perm_aux pd SortOrder.asc items).mem_iff.mp ha) hne)

/-- Witness for `sortTrends_unparseable_epoch`: the unparseable item among
positively dated items is last descending and first ascending. -/
theorem sortTrends_unparseable_epoch_witness :
    dateKey pdW wBad = 0 ∧
    (sortTrends pdW SortOrder.desc [wBad, wTwo]).getLast? = some wBad ∧
    (sortTrends pdW SortOrder.asc [wBad, wTwo]).head? = some wBad :=
  sortTrends_unparseable_epoch pdW [wBad, wTwo] wBad (by decide) (by decide)
    (by
      intro a ha hne
      rcases List.mem_cons.mp ha with h | h
      · exact absurd h hne
      · rcases List.mem_cons.mp h with h₂ | h₂
        · subst h₂
          exact ⟨2, by decide, by decide⟩
        · cases h₂)

/-- C9: toggling the sort order twice restores the order value, and hence the
derived ordering produced by `sortTrends`, on any list with pairwise distinct
timestamps. -/
theorem toggleSort_roundtrip (pd : String → Option Int) (items : List TrendItem)
    (o : SortOrder)
    (hd : items.Pairwise (fun a b => dateKey pd a ≠ dateKey pd b)) :
    toggleSort (toggleSort o) = o ∧
    sortTrends pd (toggleSort (toggleSort o)) items = sortTrends pd o items := by
  have h₁ : toggleSort (toggleSort o) = o := by cases o <;> rfl
  exact ⟨h₁, by rw [h₁]⟩

/-- Witness for `toggleSort_roundtrip` on a two-item list with distinct
keys. -/
theorem toggleSort_roundtrip_witness :
    toggleSort (toggleSort SortOrder.desc) = SortOrder.desc ∧
    sortTrends pdW (toggleSort (toggleSort SortOrder.desc)) [wOne, wTwo] =
      sortTrends pdW SortOrder.desc [wOne, wTwo] :=
  toggleSort_roundtrip pdW [wOne, wTwo] SortOrder.desc (by decide)

end TrendSpotting
